import Mathlib

/-
Verification of the seabed-mapping pipeline (src/seabed_map.py).

The embedding models the algorithmic core of `main`:
  * the event loop over the bag stream (pose tracking, pose-readiness gate,
    stride downsampling, max-frame cap, decode-failure handling, sample
    accumulation) — `runLoop` / `runMain`, over ℝ;
  * the per-frame rigid transform (lines 113–116) — `transformSamples`;
  * the finalization / gridding step (lines 133–153, numpy histogram2d
    semantics with uniform edges over the bounding box, half-open bins with
    a closed last bin) — `finalize`, generic over a linear ordered field so
    it is executable at ℚ.

External collaborators (bag reader, message deserialization, the
`bps_oculus` decoder `unpack_data_entry`/`polar_to_cart`, the `utm`
lat/lon conversion, matplotlib rendering) are modelled at their interface:
events carry the already-converted values, and a sonar event carries the
decoder result (`none` for a decode failure), mirroring the spec's
collaborator boundaries.
-/

namespace SeabedMap

/-- One world (or local) sample: coordinates and backscatter intensity.
Corresponds to one entry of the flattened `xs` / `ys` / `inten` arrays. -/
structure Sample (α : Type) where
  x : α
  y : α
  inten : α
deriving DecidableEq, Repr

/-- Errors the program can surface.  `emptyInput` is the
`RuntimeError("No sonar data collected …")` at line 124; `emptyData` is
numpy's error for `min()` of an empty array; `invalidBins` is numpy's
`ValueError` when `histogram2d` receives a non-positive integer bin
count. -/
inductive MapError
  | emptyInput
  | emptyData
  | invalidBins
deriving DecidableEq, Repr

/-- The finalized raster: bounding box, grid dimensions, per-cell counts
and per-cell values after in-place normalization (`heatmap[mask] /=
counts[mask]`).  `counts` is kept in the field type, matching numpy's
float-valued count histogram. -/
structure Raster (α : Type) where
  xmin : α
  xmax : α
  ymin : α
  ymax : α
  nx : ℕ
  ny : ℕ
  counts : ℕ → ℕ → α
  heat : ℕ → ℕ → α

section Grid

variable {α : Type} [LinearOrderedField α] [FloorRing α]

/-- Bin index of a value `v` in `n` uniform bins over `[lo, hi]`, as
computed by `np.histogram2d` for in-range data: uniform edges
`lo + k·(hi−lo)/n`, half-open bins `[e_k, e_k+1)` except the last bin,
which also contains `hi` (numpy's on-edge correction, here the clamp to
`n − 1`). -/
def binIdx (lo hi : α) (n : ℕ) (v : α) : ℕ :=
  min (⌊(v - lo) * (n : α) / (hi - lo)⌋).toNat (n - 1)

/-- Whether sample `s` falls in cell `(i, j)` of the grid. -/
def inCell (lox hix loy hiy : α) (nx ny i j : ℕ) (s : Sample α) : Bool :=
  (binIdx lox hix nx s.x == i) && (binIdx loy hiy ny s.y == j)

/-- Weighted 2-D histogram: fold over the samples, adding `w s` into the
cell of each sample — the semantics of `np.histogram2d(..., weights=w)`
restricted to in-range data (which is all data here, since the range is
the data's own bounding box). -/
def histW (lox hix loy hiy : α) (nx ny : ℕ) (w : Sample α → α)
    (l : List (Sample α)) : ℕ → ℕ → α :=
  l.foldl
    (fun acc s => fun i j =>
      if inCell lox hix loy hiy nx ny i j s then acc i j + w s else acc i j)
    (fun _ _ => 0)

/-- `all_xw.min()` over the nonempty sample list `s0 :: rest`. -/
def xminOf (s0 : Sample α) (rest : List (Sample α)) : α :=
  (rest.map Sample.x).foldl min s0.x

/-- `all_xw.max()`. -/
def xmaxOf (s0 : Sample α) (rest : List (Sample α)) : α :=
  (rest.map Sample.x).foldl max s0.x

/-- `all_yw.min()`. -/
def yminOf (s0 : Sample α) (rest : List (Sample α)) : α :=
  (rest.map Sample.y).foldl min s0.y

/-- `all_yw.max()`. -/
def ymaxOf (s0 : Sample α) (rest : List (Sample α)) : α :=
  (rest.map Sample.y).foldl max s0.y

/-- `nx = int(np.ceil((xmax - xmin) / args.resolution))`. -/
def nxOf (res : α) (s0 : Sample α) (rest : List (Sample α)) : ℤ :=
  ⌈(xmaxOf s0 rest - xminOf s0 rest) / res⌉

/-- `ny = int(np.ceil((ymax - ymin) / args.resolution))`. -/
def nyOf (res : α) (s0 : Sample α) (rest : List (Sample α)) : ℤ :=
  ⌈(ymaxOf s0 rest - yminOf s0 rest) / res⌉

/-- The raster built by the histogram block when the bin counts are
valid: weighted and unweighted `histogram2d` over the bounding box, then
`heatmap[mask] /= counts[mask]` in place for cells with positive count. -/
def rasterOf (res : α) (s0 : Sample α) (rest : List (Sample α)) : Raster α :=
  let xmin := xminOf s0 rest
  let xmax := xmaxOf s0 rest
  let ymin := yminOf s0 rest
  let ymax := ymaxOf s0 rest
  let nx := (nxOf res s0 rest).toNat
  let ny := (nyOf res s0 rest).toNat
  let hsum := histW xmin xmax ymin ymax nx ny Sample.inten (s0 :: rest)
  let hcnt := histW xmin xmax ymin ymax nx ny (fun _ => 1) (s0 :: rest)
  { xmin := xmin, xmax := xmax, ymin := ymin, ymax := ymax,
    nx := nx, ny := ny,
    counts := hcnt,
    heat := fun i j =>
      if 0 < hcnt i j then hsum i j / hcnt i j else hsum i j }

/-- Finalization (lines 133–153 of `seabed_map.py`): bounding box by
`min`/`max` over all world coordinates, grid dimensions
`nx = int(ceil((xmax−xmin)/resolution))` (idem `ny`), weighted and
unweighted histograms, then in-place mean normalization on cells with
positive count.  An empty sample list makes `min()` fail; a non-positive
bin count makes `histogram2d` raise `ValueError`. -/
def finalize (res : α) (samples : List (Sample α)) :
    Except MapError (Raster α) :=
  match samples with
  | [] => .error .emptyData
  | s0 :: rest =>
    if nxOf res s0 rest < 1 ∨ nyOf res s0 rest < 1 then .error .invalidBins
    else .ok (rasterOf res s0 rest)

end Grid

/-- The mutable pose dictionary of `main` (lines 55–60): every field
starts unset (`None`). -/
structure PoseState where
  easting : Option ℝ
  northing : Option ℝ
  heading : Option ℝ
  depth : Option ℝ

/-- `not (None in poses.values())`: the pose is complete when all four
fields have been set. -/
def PoseState.complete (p : PoseState) : Bool :=
  p.easting.isSome && p.northing.isSome && p.heading.isSome && p.depth.isSome

/-- One timestamped event of the bag stream, at the collaborator
boundary: navigation fixes carry the already-UTM-converted easting and
northing, and a sonar event carries the decoder's result (`none` when
`unpack_data_entry` yields no ping) as a list of local
(x, y, intensity) pixels, the flattened `x_table`/`y_table`/`cart_image`.
`other` is any message on an unrelated topic. -/
inductive Event
  | navGlobal (easting northing : ℝ)
  | compassHdg (hdg : ℝ)
  | relAlt (alt : ℝ)
  | sonar (frame : Option (List (Sample ℝ)))
  | other

/-- The command-line configuration relevant to the loop and finalize. -/
structure Config where
  resolution : ℝ
  maxFrames : Option ℤ
  skipFrames : ℤ

/-- The loop's accumulating state: current pose, per-frame batches of
world samples (the `all_xw`/`all_yw`/`all_int` lists of arrays, zipped),
and the two frame counters. -/
structure LoopState where
  pose : PoseState
  batches : List (List (Sample ℝ))
  totalRaw : ℕ
  processed : ℕ

/-- Lines 113–116: rotate the local pixel coordinates by the heading
(converted from degrees with `np.deg2rad`) and translate by the UTM pose.
`X = xs·cos θ − ys·sin θ + easting`, `Y = xs·sin θ + ys·cos θ + northing`. -/
noncomputable def transformSamples (heading easting northing : ℝ)
    (px : List (Sample ℝ)) : List (Sample ℝ) :=
  px.map fun p =>
    ⟨p.x * Real.cos (heading * Real.pi / 180)
       - p.y * Real.sin (heading * Real.pi / 180) + easting,
     p.x * Real.sin (heading * Real.pi / 180)
       + p.y * Real.cos (heading * Real.pi / 180) + northing,
     p.inten⟩

/-- Line 95: `args.max_frames is not None and processed_frames > args.max_frames`. -/
def hitCap (cfg : Config) (processed : ℕ) : Bool :=
  match cfg.maxFrames with
  | none => false
  | some m => (processed : ℤ) > m

/-- The event loop of `main` (lines 67–120).  Per event: navigation
topics overwrite the pose fields; a sonar event is skipped while the pose
is incomplete, then the raw-frame counter is incremented, the stride
filter applied (`skip_frames > 1 and total % skip_frames != 0`), the
processed counter incremented, the cap checked (`break` stops the whole
stream), the decode result examined (`None` → `continue`), and otherwise
the transformed batch appended. -/
noncomputable def runLoop (cfg : Config) : LoopState → List Event → LoopState
  | s, [] => s
  | s, Event.navGlobal e n :: rest =>
      runLoop cfg { s with pose := { s.pose with easting := some e, northing := some n } } rest
  | s, Event.compassHdg h :: rest =>
      runLoop cfg { s with pose := { s.pose with heading := some h } } rest
  | s, Event.relAlt a :: rest =>
      runLoop cfg { s with pose := { s.pose with depth := some a } } rest
  | s, Event.other :: rest => runLoop cfg s rest
  | s, Event.sonar fr :: rest =>
      if s.pose.complete then
        if cfg.skipFrames > 1 ∧ ((s.totalRaw + 1 : ℕ) : ℤ) % cfg.skipFrames ≠ 0 then
          runLoop cfg { s with totalRaw := s.totalRaw + 1 } rest
        else if hitCap cfg (s.processed + 1) then
          { s with totalRaw := s.totalRaw + 1, processed := s.processed + 1 }
        else
          match fr with
          | none =>
              runLoop cfg { s with totalRaw := s.totalRaw + 1, processed := s.processed + 1 } rest
          | some px =>
              let batch := transformSamples (s.pose.heading.getD 0) (s.pose.easting.getD 0)
                (s.pose.northing.getD 0) px
              let s2 := { s with totalRaw := s.totalRaw + 1, processed := s.processed + 1 }
              runLoop cfg { s2 with batches := s.batches ++ [batch] } rest
      else runLoop cfg s rest

/-- The loop's initial state (lines 55–63). -/
def initState : LoopState :=
  ⟨⟨none, none, none, none⟩, [], 0, 0⟩

/-- `main` after argument parsing: run the loop, fail with the
empty-input error when no batch was ever appended (`if not all_xw`),
otherwise finalize the concatenated samples (`np.hstack` then the
histogram block).  A `.ok` result is what reaches the renderer; an
`.error` produces no output artifact. -/
noncomputable def runMain (cfg : Config) (events : List Event) :
    Except MapError (Raster ℝ) :=
  let s := runLoop cfg initState events
  if s.batches.isEmpty then .error .emptyInput
  else finalize cfg.resolution s.batches.flatten

/-! ### Helper lemmas on fold-based minima, maxima and histograms -/

section FoldLemmas

variable {β : Type} [LinearOrder β]

lemma foldl_min_le_init (l : List β) (a : β) : l.foldl min a ≤ a := by
  induction l generalizing a with
  | nil => exact le_refl a
  | cons b l ih => exact le_trans (ih (min a b)) (min_le_left a b)

lemma foldl_min_le_mem (l : List β) (a b : β) (hb : b ∈ l) : l.foldl min a ≤ b := by
  induction l generalizing a with
  | nil => cases hb
  | cons c l ih =>
    rcases List.mem_cons.mp hb with h | h
    · subst h
      exact le_trans (foldl_min_le_init l (min a b)) (min_le_right a b)
    · exact ih (min a c) h

lemma foldl_min_mem (l : List β) (a : β) : l.foldl min a = a ∨ l.foldl min a ∈ l := by
  induction l generalizing a with
  | nil => exact Or.inl rfl
  | cons b l ih =>
    rcases ih (min a b) with h | h
    · rcases min_choice a b with hm | hm
      · exact Or.inl (by rw [List.foldl_cons, h, hm])
      · exact Or.inr (by rw [List.foldl_cons, h, hm]; exact List.mem_cons_self b l)
    · exact Or.inr (List.mem_cons_of_mem b h)

lemma le_foldl_max_init (l : List β) (a : β) : a ≤ l.foldl max a := by
  induction l generalizing a with
  | nil => exact le_refl a
  | cons b l ih => exact le_trans (le_max_left a b) (ih (max a b))

lemma le_foldl_max_mem (l : List β) (a b : β) (hb : b ∈ l) : b ≤ l.foldl max a := by
  induction l generalizing a with
  | nil => cases hb
  | cons c l ih =>
    rcases List.mem_cons.mp hb with h | h
    · subst h
      exact le_trans (le_max_right a b) (le_foldl_max_init l (max a b))
    · exact ih (max a c) h

lemma foldl_max_mem (l : List β) (a : β) : l.foldl max a = a ∨ l.foldl max a ∈ l := by
  induction l generalizing a with
  | nil => exact Or.inl rfl
  | cons b l ih =>
    rcases ih (max a b) with h | h
    · rcases max_choice a b with hm | hm
      · exact Or.inl (by rw [List.foldl_cons, h, hm])
      · exact Or.inr (by rw [List.foldl_cons, h, hm]; exact List.mem_cons_self b l)
    · exact Or.inr (List.mem_cons_of_mem b h)

lemma foldl_min_const (l : List β) (a : β) (h : ∀ b ∈ l, b = a) : l.foldl min a = a := by
  induction l with
  | nil => rfl
  | cons b l ih =>
    rw [List.foldl_cons, h b (List.mem_cons_self b l), min_self]
    exact ih fun c hc => h c (List.mem_cons_of_mem b hc)

lemma foldl_max_const (l : List β) (a : β) (h : ∀ b ∈ l, b = a) : l.foldl max a = a := by
  induction l with
  | nil => rfl
  | cons b l ih =>
    rw [List.foldl_cons, h b (List.mem_cons_self b l), max_self]
    exact ih fun c hc => h c (List.mem_cons_of_mem b hc)

end FoldLemmas

section GridLemmas

variable {α : Type} [LinearOrderedField α] [FloorRing α]

/-- The accumulated histogram value at a cell is the sum of the weights
of the samples falling in that cell. -/
lemma histW_eq_filter (lox hix loy hiy : α) (nx ny : ℕ) (w : Sample α → α)
    (l : List (Sample α)) (i j : ℕ) :
    histW lox hix loy hiy nx ny w l i j =
      ((l.filter (inCell lox hix loy hiy nx ny i j)).map w).sum := by
  suffices h : ∀ (l : List (Sample α)) (acc : ℕ → ℕ → α),
      l.foldl
        (fun acc s => fun i j =>
          if inCell lox hix loy hiy nx ny i j s then acc i j + w s else acc i j)
        acc i j =
      acc i j + ((l.filter (inCell lox hix loy hiy nx ny i j)).map w).sum by
    have := h l (fun _ _ => 0)
    simpa [histW] using this
  intro l
  induction l with
  | nil => intro acc; simp
  | cons s l ih =>
    intro acc
    rw [List.foldl_cons, ih]
    by_cases hs : inCell lox hix loy hiy nx ny i j s
    · simp only [hs, if_pos, List.filter_cons_of_pos hs, List.map_cons, List.sum_cons]
      ring
    · simp only [hs, if_neg, List.filter_cons_of_neg hs]
      simp [hs]

/-- The count histogram at a cell is the number of samples in that cell. -/
lemma histW_count_eq (lox hix loy hiy : α) (nx ny : ℕ) (l : List (Sample α)) (i j : ℕ) :
    histW lox hix loy hiy nx ny (fun _ => 1) l i j =
      ((l.filter (inCell lox hix loy hiy nx ny i j)).length : α) := by
  rw [histW_eq_filter]
  induction (l.filter (inCell lox hix loy hiy nx ny i j)) with
  | nil => simp
  | cons s t ih => simp [ih]; ring

lemma finalize_cons (res : α) (s0 : Sample α) (rest : List (Sample α)) :
    finalize res (s0 :: rest) =
      if nxOf res s0 rest < 1 ∨ nyOf res s0 rest < 1 then .error .invalidBins
      else .ok (rasterOf res s0 rest) := rfl

lemma finalize_ok_inv (res : α) (samples : List (Sample α)) (r : Raster α)
    (h : finalize res samples = .ok r) :
    ∃ s0 rest, samples = s0 :: rest ∧
      1 ≤ nxOf res s0 rest ∧ 1 ≤ nyOf res s0 rest ∧ r = rasterOf res s0 rest := by
  cases samples with
  | nil => exact absurd h (by simp [finalize])
  | cons s0 rest =>
    rw [finalize_cons] at h
    by_cases hb : nxOf res s0 rest < 1 ∨ nyOf res s0 rest < 1
    · rw [if_pos hb] at h; cases h
    · rw [if_neg hb] at h
      push_neg at hb
      exact ⟨s0, rest, rfl, by omega, by omega, (Except.ok.injEq _ _).mp h.symm⟩

lemma rasterOf_nx (res : α) (s0 : Sample α) (rest : List (Sample α)) :
    (rasterOf res s0 rest).nx = (nxOf res s0 rest).toNat := rfl

lemma rasterOf_ny (res : α) (s0 : Sample α) (rest : List (Sample α)) :
    (rasterOf res s0 rest).ny = (nyOf res s0 rest).toNat := rfl

lemma rasterOf_xmin (res : α) (s0 : Sample α) (rest : List (Sample α)) :
    (rasterOf res s0 rest).xmin = xminOf s0 rest := rfl

lemma rasterOf_xmax (res : α) (s0 : Sample α) (rest : List (Sample α)) :
    (rasterOf res s0 rest).xmax = xmaxOf s0 rest := rfl

lemma rasterOf_ymin (res : α) (s0 : Sample α) (rest : List (Sample α)) :
    (rasterOf res s0 rest).ymin = yminOf s0 rest := rfl

lemma rasterOf_ymax (res : α) (s0 : Sample α) (rest : List (Sample α)) :
    (rasterOf res s0 rest).ymax = ymaxOf s0 rest := rfl

lemma toNat_two : (2 : ℤ).toNat = 2 := rfl

lemma toNat_three : (3 : ℤ).toNat = 3 := rfl

lemma rasterOf_counts_eq (res : α) (s0 : Sample α) (rest : List (Sample α)) (i j : ℕ) :
    (rasterOf res s0 rest).counts i j =
      (((s0 :: rest).filter
          (inCell (xminOf s0 rest) (xmaxOf s0 rest) (yminOf s0 rest) (ymaxOf s0 rest)
            ((nxOf res s0 rest).toNat) ((nyOf res s0 rest).toNat) i j)).length : α) := by
  have h0 : (rasterOf res s0 rest).counts i j =
      histW (xminOf s0 rest) (xmaxOf s0 rest) (yminOf s0 rest) (ymaxOf s0 rest)
        ((nxOf res s0 rest).toNat) ((nyOf res s0 rest).toNat) (fun _ => 1) (s0 :: rest) i j := rfl
  rw [h0, histW_count_eq]

lemma rasterOf_heat_of_pos (res : α) (s0 : Sample α) (rest : List (Sample α)) (i j : ℕ)
    (h : 0 < (rasterOf res s0 rest).counts i j) :
    (rasterOf res s0 rest).heat i j =
      (((s0 :: rest).filter
          (inCell (xminOf s0 rest) (xmaxOf s0 rest) (yminOf s0 rest) (ymaxOf s0 rest)
            ((nxOf res s0 rest).toNat) ((nyOf res s0 rest).toNat) i j)).map Sample.inten).sum
        / (rasterOf res s0 rest).counts i j := by
  have hh : (rasterOf res s0 rest).heat i j =
      if 0 < (rasterOf res s0 rest).counts i j then
        histW (xminOf s0 rest) (xmaxOf s0 rest) (yminOf s0 rest) (ymaxOf s0 rest)
          ((nxOf res s0 rest).toNat) ((nyOf res s0 rest).toNat) Sample.inten (s0 :: rest) i j
          / (rasterOf res s0 rest).counts i j
      else
        histW (xminOf s0 rest) (xmaxOf s0 rest) (yminOf s0 rest) (ymaxOf s0 rest)
          ((nxOf res s0 rest).toNat) ((nyOf res s0 rest).toNat) Sample.inten (s0 :: rest) i j := rfl
  rw [hh, if_pos h, histW_eq_filter]

lemma rasterOf_heat_of_zero (res : α) (s0 : Sample α) (rest : List (Sample α)) (i j : ℕ)
    (h : (rasterOf res s0 rest).counts i j = 0) :
    (rasterOf res s0 rest).heat i j = 0 := by
  have hh : (rasterOf res s0 rest).heat i j =
      if 0 < (rasterOf res s0 rest).counts i j then
        histW (xminOf s0 rest) (xmaxOf s0 rest) (yminOf s0 rest) (ymaxOf s0 rest)
          ((nxOf res s0 rest).toNat) ((nyOf res s0 rest).toNat) Sample.inten (s0 :: rest) i j
          / (rasterOf res s0 rest).counts i j
      else
        histW (xminOf s0 rest) (xmaxOf s0 rest) (yminOf s0 rest) (ymaxOf s0 rest)
          ((nxOf res s0 rest).toNat) ((nyOf res s0 rest).toNat) Sample.inten (s0 :: rest) i j := rfl
  rw [hh, if_neg (by rw [h]; exact lt_irrefl 0), histW_eq_filter]
  have hc := rasterOf_counts_eq res s0 rest i j
  rw [h] at hc
  have hlen : (((s0 :: rest).filter
      (inCell (xminOf s0 rest) (xmaxOf s0 rest) (yminOf s0 rest) (ymaxOf s0 rest)
        ((nxOf res s0 rest).toNat) ((nyOf res s0 rest).toNat) i j)).length) = 0 := by
    exact_mod_cast hc.symm
  rw [List.length_eq_zero] at hlen
  rw [hlen]
  simp

end GridLemmas

/-! ### C1: the per-frame rigid transform -/

/-- C1: for every processed frame, each pixel (x, y, intensity) is mapped
to the world sample (x·cos θ − y·sin θ + easting, x·sin θ + y·cos θ +
northing, intensity) with θ the heading in radians; in particular, for
heading = 0 the world coordinates are the local ones translated by
(easting, northing). -/
theorem transform_rotation_correct (heading easting northing : ℝ) (px : List (Sample ℝ)) :
    transformSamples heading easting northing px =
      px.map (fun p =>
        ⟨p.x * Real.cos (heading * Real.pi / 180)
           - p.y * Real.sin (heading * Real.pi / 180) + easting,
         p.x * Real.sin (heading * Real.pi / 180)
           + p.y * Real.cos (heading * Real.pi / 180) + northing,
         p.inten⟩)
    ∧ (heading = 0 →
        transformSamples heading easting northing px =
          px.map (fun p => ⟨p.x + easting, p.y + northing, p.inten⟩)) := by
  constructor
  · rfl
  · intro h0
    subst h0
    unfold transformSamples
    have hθ : (0 : ℝ) * Real.pi / 180 = 0 := by ring
    simp [hθ]

/-- Witness for C1 at heading 0: the pixel (3, 4, 5) with pose easting 1,
northing 2 lands at (4, 6, 5). -/
theorem transform_rotation_correct_witness :
    transformSamples 0 1 2 [⟨3, 4, 5⟩] = [⟨4, 6, 5⟩] := by
  have h := (transform_rotation_correct 0 1 2 [⟨3, 4, 5⟩]).2 rfl
  rw [h]
  norm_num

/-! ### C2, C3, C4, C10: finalization -/

/-- C2 (amended with positive extent on both axes): for every non-empty
sample set whose x- and y-extents are positive and positive resolution,
finalization succeeds and returns the raster whose bounding box is the
min/max over all samples, whose grid dimensions are
nx = ceil((xmax−xmin)/res) and ny = ceil((ymax−ymin)/res), and whose
cells hold the per-cell sample count and, when the count is positive,
the mean intensity sum/count of the samples binned there by
coordinate. -/
theorem finalize_binning_correct (res : ℚ) (s0 : Sample ℚ) (rest : List (Sample ℚ))
    (hres : 0 < res)
    (hx : xminOf s0 rest < xmaxOf s0 rest)
    (hy : yminOf s0 rest < ymaxOf s0 rest) :
    ∃ r : Raster ℚ, finalize res (s0 :: rest) = .ok r ∧
      (∀ s ∈ s0 :: rest, r.xmin ≤ s.x ∧ s.x ≤ r.xmax ∧ r.ymin ≤ s.y ∧ s.y ≤ r.ymax) ∧
      (∃ s ∈ s0 :: rest, s.x = r.xmin) ∧ (∃ s ∈ s0 :: rest, s.x = r.xmax) ∧
      (∃ s ∈ s0 :: rest, s.y = r.ymin) ∧ (∃ s ∈ s0 :: rest, s.y = r.ymax) ∧
      r.nx = (⌈(r.xmax - r.xmin) / res⌉).toNat ∧ 1 ≤ r.nx ∧
      r.ny = (⌈(r.ymax - r.ymin) / res⌉).toNat ∧ 1 ≤ r.ny ∧
      (∀ i j,
        r.counts i j =
          (((s0 :: rest).filter (inCell r.xmin r.xmax r.ymin r.ymax r.nx r.ny i j)).length : ℚ) ∧
        (0 < r.counts i j →
          r.heat i j =
            (((s0 :: rest).filter (inCell r.xmin r.xmax r.ymin r.ymax r.nx r.ny i j)).map
              Sample.inten).sum / r.counts i j)) := by
  have hnx : 1 ≤ nxOf res s0 rest := by
    have hpos : 0 < (xmaxOf s0 rest - xminOf s0 rest) / res :=
      div_pos (by linarith) hres
    have := Int.ceil_pos.mpr hpos
    unfold nxOf
    omega
  have hny : 1 ≤ nyOf res s0 rest := by
    have hpos : 0 < (ymaxOf s0 rest - yminOf s0 rest) / res :=
      div_pos (by linarith) hres
    have := Int.ceil_pos.mpr hpos
    unfold nyOf
    omega
  refine ⟨rasterOf res s0 rest, ?_, ?_, ?_, ?_, ?_, ?_, rfl,
    by rw [rasterOf_nx]; omega, rfl, by rw [rasterOf_ny]; omega, ?_⟩
  · rw [finalize_cons, if_neg (by push_neg; omega)]
  · intro s hs
    rcases List.mem_cons.mp hs with h | h
    · subst h
      exact ⟨foldl_min_le_init _ _, le_foldl_max_init _ _,
        foldl_min_le_init _ _, le_foldl_max_init _ _⟩
    · exact ⟨foldl_min_le_mem _ _ _ (List.mem_map_of_mem Sample.x h),
        le_foldl_max_mem _ _ _ (List.mem_map_of_mem Sample.x h),
        foldl_min_le_mem _ _ _ (List.mem_map_of_mem Sample.y h),
        le_foldl_max_mem _ _ _ (List.mem_map_of_mem Sample.y h)⟩
  · rcases foldl_min_mem (rest.map Sample.x) s0.x with h | h
    · exact ⟨s0, List.mem_cons_self _ _, h.symm⟩
    · rcases List.mem_map.mp h with ⟨s, hs, hx2⟩
      exact ⟨s, List.mem_cons_of_mem _ hs, hx2⟩
  · rcases foldl_max_mem (rest.map Sample.x) s0.x with h | h
    · exact ⟨s0, List.mem_cons_self _ _, h.symm⟩
    · rcases List.mem_map.mp h with ⟨s, hs, hx2⟩
      exact ⟨s, List.mem_cons_of_mem _ hs, hx2⟩
  · rcases foldl_min_mem (rest.map Sample.y) s0.y with h | h
    · exact ⟨s0, List.mem_cons_self _ _, h.symm⟩
    · rcases List.mem_map.mp h with ⟨s, hs, hy2⟩
      exact ⟨s, List.mem_cons_of_mem _ hs, hy2⟩
  · rcases foldl_max_mem (rest.map Sample.y) s0.y with h | h
    · exact ⟨s0, List.mem_cons_self _ _, h.symm⟩
    · rcases List.mem_map.mp h with ⟨s, hs, hy2⟩
      exact ⟨s, List.mem_cons_of_mem _ hs, hy2⟩
  · intro i j
    exact ⟨rasterOf_counts_eq res s0 rest i j, fun hpos => rasterOf_heat_of_pos res s0 rest i j hpos⟩

/-- Witness for C2 at resolution 1 with samples (0,0,10) and (1,1,30):
finalization succeeds. -/
theorem finalize_binning_correct_witness :
    (finalize (1 : ℚ) [⟨0, 0, 10⟩, ⟨1, 1, 30⟩]).toOption.isSome = true := by
  obtain ⟨r, hr, -⟩ :=
    finalize_binning_correct 1 ⟨0, 0, 10⟩ [⟨1, 1, 30⟩] (by norm_num)
      (by norm_num [xminOf, xmaxOf]) (by norm_num [yminOf, ymaxOf])
  rw [hr]
  rfl

/-- Counterexample to C2 as stated: a non-empty sample set (all x equal)
on which finalization does not produce a raster at all. -/
theorem finalize_binning_not_total :
    (finalize (1 : ℚ) [⟨0, 0, 1⟩, ⟨0, 1, 2⟩]).toOption.isSome = false ∧
    ([⟨0, 0, 1⟩, ⟨0, 1, 2⟩] : List (Sample ℚ)) ≠ [] := by
  refine ⟨?_, by simp⟩
  rw [finalize_cons, if_pos (Or.inl (by norm_num [nxOf, nyOf, xminOf, xmaxOf, yminOf, ymaxOf]))]
  rfl

/-- C3 (amended): a cell with count 0 is not marked; it keeps its raw
histogram value 0, which is exactly the value of a populated cell whose
mean intensity is 0. -/
theorem finalize_empty_cell_zero (res : ℚ) (samples : List (Sample ℚ)) (r : Raster ℚ)
    (h : finalize res samples = .ok r) (i j : ℕ) (hc : r.counts i j = 0) :
    r.heat i j = 0 := by
  obtain ⟨s0, rest, hs, hnx, hny, hr⟩ := finalize_ok_inv res samples r h
  subst hr
  exact rasterOf_heat_of_zero res s0 rest i j hc

/-- Witness for C3 (amended): concrete raster in which cell (0,1) has
count 0 and value 0. -/
theorem finalize_empty_cell_zero_witness :
    finalize (1 : ℚ) [⟨0, 0, 5⟩, ⟨2, 2, 7⟩] = .ok (rasterOf 1 ⟨0, 0, 5⟩ [⟨2, 2, 7⟩]) ∧
    (rasterOf (1 : ℚ) ⟨0, 0, 5⟩ [⟨2, 2, 7⟩]).counts 0 1 = 0 ∧
    (rasterOf (1 : ℚ) ⟨0, 0, 5⟩ [⟨2, 2, 7⟩]).heat 0 1 = 0 :=
  ⟨by rw [finalize_cons, if_neg]; norm_num [nxOf, nyOf, xminOf, xmaxOf, yminOf, ymaxOf],
   by norm_num [rasterOf, histW, inCell, binIdx, nxOf, nyOf, xminOf, xmaxOf, yminOf, ymaxOf, toNat_two],
   finalize_empty_cell_zero 1 [⟨0, 0, 5⟩, ⟨2, 2, 7⟩] (rasterOf 1 ⟨0, 0, 5⟩ [⟨2, 2, 7⟩])
     (by rw [finalize_cons, if_neg]; norm_num [nxOf, nyOf, xminOf, xmaxOf, yminOf, ymaxOf]) 0 1
     (by norm_num [rasterOf, histW, inCell, binIdx, nxOf, nyOf, xminOf, xmaxOf, yminOf, ymaxOf, toNat_two])⟩

/-- Counterexample to C3 as stated: in the raster for samples (0,0,0)
and (3,3,7) at resolution 1, the populated cell (0,0) has mean exactly 0
and the unpopulated cell (1,1) also holds 0 — the rendered artifact is
built from the heat values alone, so absence of coverage is not
distinguishable from a true zero mean. -/
theorem finalize_nodata_indistinguishable :
    finalize (1 : ℚ) [⟨0, 0, 0⟩, ⟨3, 3, 7⟩] = .ok (rasterOf 1 ⟨0, 0, 0⟩ [⟨3, 3, 7⟩]) ∧
    (rasterOf (1 : ℚ) ⟨0, 0, 0⟩ [⟨3, 3, 7⟩]).counts 0 0 = 1 ∧
    (rasterOf (1 : ℚ) ⟨0, 0, 0⟩ [⟨3, 3, 7⟩]).heat 0 0 = 0 ∧
    (rasterOf (1 : ℚ) ⟨0, 0, 0⟩ [⟨3, 3, 7⟩]).counts 1 1 = 0 ∧
    (rasterOf (1 : ℚ) ⟨0, 0, 0⟩ [⟨3, 3, 7⟩]).heat 1 1 =
      (rasterOf (1 : ℚ) ⟨0, 0, 0⟩ [⟨3, 3, 7⟩]).heat 0 0 :=
  ⟨by rw [finalize_cons, if_neg]; norm_num [nxOf, nyOf, xminOf, xmaxOf, yminOf, ymaxOf],
   by norm_num [rasterOf, histW, inCell, binIdx, nxOf, nyOf, xminOf, xmaxOf, yminOf, ymaxOf, toNat_three], by norm_num [rasterOf, histW, inCell, binIdx, nxOf, nyOf, xminOf, xmaxOf, yminOf, ymaxOf, toNat_three], by norm_num [rasterOf, histW, inCell, binIdx, nxOf, nyOf, xminOf, xmaxOf, yminOf, ymaxOf, toNat_three], by norm_num [rasterOf, histW, inCell, binIdx, nxOf, nyOf, xminOf, xmaxOf, yminOf, ymaxOf, toNat_three]⟩

/-- C4 (amended): for every successfully finalized raster, the cell size
is (xmax−xmin)/nx, which is at most (not exactly) the configured
resolution; the grid extent does equal the min/max bounding box of the
samples. -/
theorem finalize_cell_size_bound (res : ℚ) (samples : List (Sample ℚ)) (r : Raster ℚ)
    (h : finalize res samples = .ok r) :
    0 < res ∧ r.xmin < r.xmax ∧ r.ymin < r.ymax ∧ 1 ≤ r.nx ∧ 1 ≤ r.ny ∧
    (r.xmax - r.xmin) / (r.nx : ℚ) ≤ res ∧
    (r.ymax - r.ymin) / (r.ny : ℚ) ≤ res ∧
    (∀ s ∈ samples, r.xmin ≤ s.x ∧ s.x ≤ r.xmax ∧ r.ymin ≤ s.y ∧ s.y ≤ r.ymax) ∧
    (∃ s ∈ samples, s.x = r.xmin) ∧ (∃ s ∈ samples, s.x = r.xmax) ∧
    (∃ s ∈ samples, s.y = r.ymin) ∧ (∃ s ∈ samples, s.y = r.ymax) := by
  obtain ⟨s0, rest, hs, hnx, hny, hr⟩ := finalize_ok_inv res samples r h
  subst hr
  subst hs
  have hdx0 : xminOf s0 rest ≤ xmaxOf s0 rest :=
    le_trans (foldl_min_le_init _ _) (le_foldl_max_init _ _)
  have hdy0 : yminOf s0 rest ≤ ymaxOf s0 rest :=
    le_trans (foldl_min_le_init _ _) (le_foldl_max_init _ _)
  have hdxpos : 0 < (xmaxOf s0 rest - xminOf s0 rest) / res :=
    Int.ceil_pos.mp (by unfold nxOf at hnx; omega)
  have hdypos : 0 < (ymaxOf s0 rest - yminOf s0 rest) / res :=
    Int.ceil_pos.mp (by unfold nyOf at hny; omega)
  have hres : 0 < res := by
    rcases div_pos_iff.mp hdxpos with ⟨-, h2⟩ | ⟨h1, -⟩
    · exact h2
    · linarith
  have hdx : xminOf s0 rest < xmaxOf s0 rest := by
    rcases div_pos_iff.mp hdxpos with ⟨h1, -⟩ | ⟨h1, -⟩ <;> linarith
  have hdy : yminOf s0 rest < ymaxOf s0 rest := by
    rcases div_pos_iff.mp hdypos with ⟨h1, -⟩ | ⟨h1, -⟩ <;> linarith
  have hnxcast : (((nxOf res s0 rest).toNat : ℕ) : ℚ) = ((nxOf res s0 rest : ℤ) : ℚ) := by
    have h0 : ((nxOf res s0 rest).toNat : ℤ) = nxOf res s0 rest := Int.toNat_of_nonneg (by omega)
    exact_mod_cast congrArg (fun z : ℤ => (z : ℚ)) h0
  have hnycast : (((nyOf res s0 rest).toNat : ℕ) : ℚ) = ((nyOf res s0 rest : ℤ) : ℚ) := by
    have h0 : ((nyOf res s0 rest).toNat : ℤ) = nyOf res s0 rest := Int.toNat_of_nonneg (by omega)
    exact_mod_cast congrArg (fun z : ℤ => (z : ℚ)) h0
  have hnxQ : (0 : ℚ) < ((nxOf res s0 rest).toNat : ℚ) := by
    rw [hnxcast]
    exact_mod_cast hnx
  have hnyQ : (0 : ℚ) < ((nyOf res s0 rest).toNat : ℚ) := by
    rw [hnycast]
    exact_mod_cast hny
  have hwx : (xmaxOf s0 rest - xminOf s0 rest) / ((nxOf res s0 rest).toNat : ℚ) ≤ res := by
    rw [div_le_iff₀ hnxQ, hnxcast]
    have hle : (xmaxOf s0 rest - xminOf s0 rest) / res ≤ ((nxOf res s0 rest : ℤ) : ℚ) :=
      Int.le_ceil _
    have := (div_le_iff₀ hres).mp hle
    linarith
  have hwy : (ymaxOf s0 rest - yminOf s0 rest) / ((nyOf res s0 rest).toNat : ℚ) ≤ res := by
    rw [div_le_iff₀ hnyQ, hnycast]
    have hle : (ymaxOf s0 rest - yminOf s0 rest) / res ≤ ((nyOf res s0 rest : ℤ) : ℚ) :=
      Int.le_ceil _
    have := (div_le_iff₀ hres).mp hle
    linarith
  refine ⟨hres, hdx, hdy, by rw [rasterOf_nx]; omega, by rw [rasterOf_ny]; omega,
    hwx, hwy, ?_, ?_, ?_, ?_, ?_⟩
  · intro s hsm
    rcases List.mem_cons.mp hsm with h2 | h2
    · subst h2
      exact ⟨foldl_min_le_init _ _, le_foldl_max_init _ _,
        foldl_min_le_init _ _, le_foldl_max_init _ _⟩
    · exact ⟨foldl_min_le_mem _ _ _ (List.mem_map_of_mem Sample.x h2),
        le_foldl_max_mem _ _ _ (List.mem_map_of_mem Sample.x h2),
        foldl_min_le_mem _ _ _ (List.mem_map_of_mem Sample.y h2),
        le_foldl_max_mem _ _ _ (List.mem_map_of_mem Sample.y h2)⟩
  · rcases foldl_min_mem (rest.map Sample.x) s0.x with h2 | h2
    · exact ⟨s0, List.mem_cons_self _ _, h2.symm⟩
    · rcases List.mem_map.mp h2 with ⟨s, hs2, hx2⟩
      exact ⟨s, List.mem_cons_of_mem _ hs2, hx2⟩
  · rcases foldl_max_mem (rest.map Sample.x) s0.x with h2 | h2
    · exact ⟨s0, List.mem_cons_self _ _, h2.symm⟩
    · rcases List.mem_map.mp h2 with ⟨s, hs2, hx2⟩
      exact ⟨s, List.mem_cons_of_mem _ hs2, hx2⟩
  · rcases foldl_min_mem (rest.map Sample.y) s0.y with h2 | h2
    · exact ⟨s0, List.mem_cons_self _ _, h2.symm⟩
    · rcases List.mem_map.mp h2 with ⟨s, hs2, hy2⟩
      exact ⟨s, List.mem_cons_of_mem _ hs2, hy2⟩
  · rcases foldl_max_mem (rest.map Sample.y) s0.y with h2 | h2
    · exact ⟨s0, List.mem_cons_self _ _, h2.symm⟩
    · rcases List.mem_map.mp h2 with ⟨s, hs2, hy2⟩
      exact ⟨s, List.mem_cons_of_mem _ hs2, hy2⟩

/-- Witness for C4 (amended) at resolution 1 with samples (0,0,10) and
(2,3,30): finalization succeeds and the x cell size is within the
resolution. -/
theorem finalize_cell_size_bound_witness :
    finalize (1 : ℚ) [⟨0, 0, 10⟩, ⟨2, 3, 30⟩] = .ok (rasterOf 1 ⟨0, 0, 10⟩ [⟨2, 3, 30⟩]) ∧
    ((rasterOf (1 : ℚ) ⟨0, 0, 10⟩ [⟨2, 3, 30⟩]).xmax -
        (rasterOf (1 : ℚ) ⟨0, 0, 10⟩ [⟨2, 3, 30⟩]).xmin) /
      ((rasterOf (1 : ℚ) ⟨0, 0, 10⟩ [⟨2, 3, 30⟩]).nx : ℚ) ≤ 1 :=
  ⟨by rw [finalize_cons, if_neg]; norm_num [nxOf, nyOf, xminOf, xmaxOf, yminOf, ymaxOf],
   (finalize_cell_size_bound 1 [⟨0, 0, 10⟩, ⟨2, 3, 30⟩] (rasterOf 1 ⟨0, 0, 10⟩ [⟨2, 3, 30⟩])
     (by rw [finalize_cons, if_neg]; norm_num [nxOf, nyOf, xminOf, xmaxOf, yminOf, ymaxOf])).2.2.2.2.2.1⟩

/-- Counterexample to C4 as stated: at resolution 1 with x-extent 3/2,
the grid has nx = 2 and the actual cell size is 3/4, not the configured
resolution. -/
theorem cell_size_not_resolution :
    finalize (1 : ℚ) [⟨0, 0, 1⟩, ⟨3/2, 3/2, 2⟩] = .ok (rasterOf 1 ⟨0, 0, 1⟩ [⟨3/2, 3/2, 2⟩]) ∧
    (rasterOf (1 : ℚ) ⟨0, 0, 1⟩ [⟨3/2, 3/2, 2⟩]).nx = 2 ∧
    ((rasterOf (1 : ℚ) ⟨0, 0, 1⟩ [⟨3/2, 3/2, 2⟩]).xmax -
        (rasterOf (1 : ℚ) ⟨0, 0, 1⟩ [⟨3/2, 3/2, 2⟩]).xmin) /
      ((rasterOf (1 : ℚ) ⟨0, 0, 1⟩ [⟨3/2, 3/2, 2⟩]).nx : ℚ) = 3/4 ∧
    (3/4 : ℚ) ≠ 1 := by
  have hnx : nxOf (1 : ℚ) ⟨0, 0, 1⟩ [⟨3/2, 3/2, 2⟩] = 2 := by
    unfold nxOf
    rw [Int.ceil_eq_iff]
    norm_num [xminOf, xmaxOf]
  refine ⟨by rw [finalize_cons, if_neg]; norm_num [nxOf, nyOf, xminOf, xmaxOf, yminOf, ymaxOf], ?_, ?_, by norm_num⟩
  · rw [rasterOf_nx, hnx]
    rfl
  · rw [rasterOf_nx, rasterOf_xmin, rasterOf_xmax, hnx]
    norm_num [xminOf, xmaxOf, toNat_two]

/-- C10: any non-empty sample set in which all samples share the same x
coordinate makes nx = ceil(0/res) = 0, and finalization fails on the
zero-bin histogram instead of producing a raster (symmetrically for a
shared y coordinate, via ny). -/
theorem degenerate_extent_fails (res : ℚ) (s0 : Sample ℚ) (rest : List (Sample ℚ))
    (h : ∀ s ∈ rest, s.x = s0.x) :
    finalize res (s0 :: rest) = .error .invalidBins ∧ nxOf res s0 rest = 0 := by
  have hmem : ∀ b ∈ rest.map Sample.x, b = s0.x := by
    intro b hb
    rcases List.mem_map.mp hb with ⟨s, hs, rfl⟩
    exact h s hs
  have hmin : xminOf s0 rest = s0.x := foldl_min_const _ _ hmem
  have hmax : xmaxOf s0 rest = s0.x := foldl_max_const _ _ hmem
  have hnx : nxOf res s0 rest = 0 := by
    unfold nxOf
    rw [hmin, hmax, sub_self, zero_div, Int.ceil_zero]
  exact ⟨by rw [finalize_cons, if_pos (Or.inl (by omega))], hnx⟩

/-- Witness for C10: two samples sharing x = 0 make finalization fail. -/
theorem degenerate_extent_fails_witness :
    finalize (1 : ℚ) [⟨0, 0, 1⟩, ⟨0, 5, 2⟩] = .error .invalidBins ∧
    nxOf (1 : ℚ) ⟨0, 0, 1⟩ [⟨0, 5, 2⟩] = 0 :=
  degenerate_extent_fails 1 ⟨0, 0, 1⟩ [⟨0, 5, 2⟩]
    (by intro s hs; rw [List.mem_singleton] at hs; subst hs; rfl)

/-! ### Step lemmas for the event loop -/

lemma runLoop_nil (cfg : Config) (s : LoopState) : runLoop cfg s [] = s := rfl

lemma runLoop_sonar_incomplete (cfg : Config) (s : LoopState) (fr : Option (List (Sample ℝ)))
    (rest : List Event) (hp : s.pose.complete = false) :
    runLoop cfg s (Event.sonar fr :: rest) = runLoop cfg s rest := by
  simp only [runLoop]
  rw [hp, if_neg Bool.false_ne_true]

lemma runLoop_sonar_skip (cfg : Config) (s : LoopState) (fr : Option (List (Sample ℝ)))
    (rest : List Event) (hp : s.pose.complete = true)
    (hskip : cfg.skipFrames > 1 ∧ ((s.totalRaw + 1 : ℕ) : ℤ) % cfg.skipFrames ≠ 0) :
    runLoop cfg s (Event.sonar fr :: rest) =
      runLoop cfg { s with totalRaw := s.totalRaw + 1 } rest := by
  simp only [runLoop]
  rw [hp, if_pos rfl, if_pos hskip]

lemma runLoop_sonar_break (cfg : Config) (s : LoopState) (fr : Option (List (Sample ℝ)))
    (rest : List Event) (hp : s.pose.complete = true)
    (hskip : ¬(cfg.skipFrames > 1 ∧ ((s.totalRaw + 1 : ℕ) : ℤ) % cfg.skipFrames ≠ 0))
    (hc : hitCap cfg (s.processed + 1) = true) :
    runLoop cfg s (Event.sonar fr :: rest) =
      { s with totalRaw := s.totalRaw + 1, processed := s.processed + 1 } := by
  simp only [runLoop]
  rw [hp, if_pos rfl, if_neg hskip, hc, if_pos rfl]

lemma runLoop_sonar_none (cfg : Config) (s : LoopState) (rest : List Event)
    (hp : s.pose.complete = true)
    (hskip : ¬(cfg.skipFrames > 1 ∧ ((s.totalRaw + 1 : ℕ) : ℤ) % cfg.skipFrames ≠ 0))
    (hc : hitCap cfg (s.processed + 1) = false) :
    runLoop cfg s (Event.sonar none :: rest) =
      runLoop cfg { s with totalRaw := s.totalRaw + 1, processed := s.processed + 1 } rest := by
  simp only [runLoop]
  rw [hp, if_pos rfl, if_neg hskip, hc, if_neg Bool.false_ne_true]

lemma runLoop_sonar_some (cfg : Config) (s : LoopState) (px : List (Sample ℝ))
    (rest : List Event) (hp : s.pose.complete = true)
    (hskip : ¬(cfg.skipFrames > 1 ∧ ((s.totalRaw + 1 : ℕ) : ℤ) % cfg.skipFrames ≠ 0))
    (hc : hitCap cfg (s.processed + 1) = false) :
    runLoop cfg s (Event.sonar (some px) :: rest) =
      runLoop cfg
        { s with
            totalRaw := s.totalRaw + 1
            processed := s.processed + 1
            batches := s.batches ++
              [transformSamples (s.pose.heading.getD 0) (s.pose.easting.getD 0)
                (s.pose.northing.getD 0) px] } rest := by
  simp only [runLoop]
  rw [hp, if_pos rfl, if_neg hskip, hc, if_neg Bool.false_ne_true]


/-! ### C5: stride downsampling -/

/-- The number of accepted frames among the first `t` eligible raw
frames under stride `N`: with the loop's rule (accept the k-th eligible
frame iff `N ≤ 1` or `N ∣ k`), this is `t / N` for `N > 1` and `t`
otherwise. -/
def strideCount (N : ℤ) (t : ℕ) : ℕ :=
  if 1 < N then t / N.toNat else t

lemma strideCount_succ (N : ℤ) (hN : 1 ≤ N) (t : ℕ) :
    strideCount N (t + 1) =
      if N > 1 ∧ ((t + 1 : ℕ) : ℤ) % N ≠ 0 then strideCount N t
      else strideCount N t + 1 := by
  by_cases h1 : 1 < N
  · have hNt : (N.toNat : ℤ) = N := Int.toNat_of_nonneg (by omega)
    have hdvd : (((t + 1 : ℕ) : ℤ) % N = 0) ↔ N.toNat ∣ (t + 1) := by
      constructor
      · intro h
        have h2 : N ∣ ((t + 1 : ℕ) : ℤ) := Int.dvd_of_emod_eq_zero h
        rw [← hNt] at h2
        exact_mod_cast h2
      · intro h
        apply Int.emod_eq_zero_of_dvd
        rw [← hNt]
        exact_mod_cast h
    by_cases hm : ((t + 1 : ℕ) : ℤ) % N = 0
    · rw [if_neg (fun hand => hand.2 hm)]
      simp only [strideCount, if_pos h1]
      rw [Nat.succ_div, if_pos (hdvd.mp hm)]
    · rw [if_pos (show N > 1 ∧ ((t + 1 : ℕ) : ℤ) % N ≠ 0 from ⟨h1, hm⟩)]
      simp only [strideCount, if_pos h1]
      rw [Nat.succ_div, if_neg (fun hd => hm (hdvd.mpr hd))]
      omega
  · have hNe : N = 1 := le_antisymm (by omega) hN
    subst hNe
    simp [strideCount]

lemma hitCap_none (cfg : Config) (h : cfg.maxFrames = none) (p : ℕ) :
    hitCap cfg p = false := by
  simp [hitCap, h]

lemma runLoop_stride_invariant (cfg : Config) (hcap : cfg.maxFrames = none)
    (hN : 1 ≤ cfg.skipFrames) :
    ∀ (evs : List Event) (s : LoopState),
      s.processed = strideCount cfg.skipFrames s.totalRaw →
      (runLoop cfg s evs).processed =
        strideCount cfg.skipFrames (runLoop cfg s evs).totalRaw := by
  intro evs
  induction evs with
  | nil => intro s hs; exact hs
  | cons e rest ih =>
    intro s hs
    cases e with
    | navGlobal a b => exact ih _ hs
    | compassHdg a => exact ih _ hs
    | relAlt a => exact ih _ hs
    | other => exact ih _ hs
    | sonar fr =>
      by_cases hp : s.pose.complete = true
      · by_cases hskip :
            cfg.skipFrames > 1 ∧ ((s.totalRaw + 1 : ℕ) : ℤ) % cfg.skipFrames ≠ 0
        · rw [runLoop_sonar_skip cfg s fr rest hp hskip]
          apply ih
          show s.processed = strideCount cfg.skipFrames (s.totalRaw + 1)
          rw [strideCount_succ _ hN, if_pos hskip]
          exact hs
        · have hc : hitCap cfg (s.processed + 1) = false := hitCap_none cfg hcap _
          have hnext : s.processed + 1 = strideCount cfg.skipFrames (s.totalRaw + 1) := by
            rw [strideCount_succ _ hN, if_neg hskip, hs]
          cases fr with
          | none =>
            rw [runLoop_sonar_none cfg s rest hp hskip hc]
            exact ih _ hnext
          | some px =>
            rw [runLoop_sonar_some cfg s px rest hp hskip hc]
            exact ih _ hnext
      · rw [runLoop_sonar_incomplete cfg s fr rest (by simpa using hp)]
        exact ih _ hs

/-- C5: with stride N ≥ 1 and no frame cap, the loop accepts exactly
every Nth eligible raw frame: the processed count always equals
⌊totalRaw / N⌋ for N > 1 and totalRaw for N = 1; in particular for N = 1
every eligible frame is accepted, and when N exceeds the number of
eligible frames nothing is processed (the code's fixed edge
convention is zero, one of the two conventions the claim allows). -/
theorem stride_every_nth (cfg : Config) (events : List Event)
    (hcap : cfg.maxFrames = none) (hN : 1 ≤ cfg.skipFrames) :
    ((runLoop cfg initState events).processed =
      if 1 < cfg.skipFrames then
        (runLoop cfg initState events).totalRaw / cfg.skipFrames.toNat
      else (runLoop cfg initState events).totalRaw) ∧
    (cfg.skipFrames = 1 →
      (runLoop cfg initState events).processed =
        (runLoop cfg initState events).totalRaw) ∧
    (((runLoop cfg initState events).totalRaw : ℤ) < cfg.skipFrames →
      (runLoop cfg initState events).processed = 0) := by
  have h := runLoop_stride_invariant cfg hcap hN events initState (by simp [initState, strideCount])
  rw [strideCount] at h
  refine ⟨h, ?_, ?_⟩
  · intro h1
    rw [h, if_neg (by omega)]
  · intro hlt
    rw [h]
    by_cases h1 : 1 < cfg.skipFrames
    · rw [if_pos h1]
      apply Nat.div_eq_of_lt
      omega
    · rw [if_neg h1]
      omega

/-- Witness for C5: stride 3, five eligible frames — exactly one frame
(the third) is accepted. -/
theorem stride_every_nth_witness :
    (runLoop ⟨1, none, 3⟩ initState
      [Event.navGlobal 0 0, Event.compassHdg 0, Event.relAlt 0,
       Event.sonar none, Event.sonar none, Event.sonar none,
       Event.sonar none, Event.sonar none]).processed = 1 ∧
    ((runLoop ⟨1, none, 3⟩ initState
      [Event.navGlobal 0 0, Event.compassHdg 0, Event.relAlt 0,
       Event.sonar none, Event.sonar none, Event.sonar none,
       Event.sonar none, Event.sonar none]).processed =
      if 1 < (3 : ℤ) then
        (runLoop ⟨1, none, 3⟩ initState
          [Event.navGlobal 0 0, Event.compassHdg 0, Event.relAlt 0,
           Event.sonar none, Event.sonar none, Event.sonar none,
           Event.sonar none, Event.sonar none]).totalRaw / (3 : ℤ).toNat
      else (runLoop ⟨1, none, 3⟩ initState
        [Event.navGlobal 0 0, Event.compassHdg 0, Event.relAlt 0,
         Event.sonar none, Event.sonar none, Event.sonar none,
         Event.sonar none, Event.sonar none]).totalRaw) :=
  ⟨by simp [runLoop, initState, PoseState.complete, hitCap],
   (stride_every_nth ⟨1, none, 3⟩ _ rfl (by norm_num)).1⟩

/-! ### C6: the max-frame cap -/

lemma hitCap_true_iff (cfg : Config) (m : ℤ) (hm : cfg.maxFrames = some m) (p : ℕ) :
    hitCap cfg p = true ↔ (p : ℤ) > m := by
  simp [hitCap, hm]

lemma runLoop_break_extend (cfg : Config) (m : ℤ) (hm : cfg.maxFrames = some m) :
    ∀ (evs : List Event) (s : LoopState) (more : List Event),
      (s.processed : ℤ) ≤ m →
      hitCap cfg ((runLoop cfg s evs).processed) = true →
      runLoop cfg s (evs ++ more) = runLoop cfg s evs := by
  intro evs
  induction evs with
  | nil =>
    intro s more hle hcap2
    exfalso
    rw [runLoop_nil, hitCap_true_iff cfg m hm] at hcap2
    omega
  | cons e rest ih =>
    intro s more hle hcap2
    cases e with
    | navGlobal a b => exact ih _ more hle hcap2
    | compassHdg a => exact ih _ more hle hcap2
    | relAlt a => exact ih _ more hle hcap2
    | other => exact ih _ more hle hcap2
    | sonar fr =>
      by_cases hp : s.pose.complete = true
      · by_cases hskip :
            cfg.skipFrames > 1 ∧ ((s.totalRaw + 1 : ℕ) : ℤ) % cfg.skipFrames ≠ 0
        · rw [runLoop_sonar_skip cfg s fr rest hp hskip] at hcap2 ⊢
          rw [show (Event.sonar fr :: rest) ++ more = Event.sonar fr :: (rest ++ more) from rfl,
            runLoop_sonar_skip cfg s fr (rest ++ more) hp hskip]
          exact ih _ more hle hcap2
        · by_cases hc : hitCap cfg (s.processed + 1) = true
          · rw [runLoop_sonar_break cfg s fr rest hp hskip hc]
            rw [show (Event.sonar fr :: rest) ++ more = Event.sonar fr :: (rest ++ more) from rfl,
              runLoop_sonar_break cfg s fr (rest ++ more) hp hskip hc]
          · have hc2 : hitCap cfg (s.processed + 1) = false := by
              cases h2 : hitCap cfg (s.processed + 1)
              · rfl
              · exact absurd h2 hc
            have hle2 : ((s.processed + 1 : ℕ) : ℤ) ≤ m := by
              have := (hitCap_true_iff cfg m hm (s.processed + 1)).not.mp
                (by rw [hc2]; exact Bool.false_ne_true)
              omega
            cases fr with
            | none =>
              rw [runLoop_sonar_none cfg s rest hp hskip hc2] at hcap2 ⊢
              rw [show (Event.sonar none :: rest) ++ more =
                    Event.sonar none :: (rest ++ more) from rfl,
                runLoop_sonar_none cfg s (rest ++ more) hp hskip hc2]
              exact ih _ more hle2 hcap2
            | some px =>
              rw [runLoop_sonar_some cfg s px rest hp hskip hc2] at hcap2 ⊢
              rw [show (Event.sonar (some px) :: rest) ++ more =
                    Event.sonar (some px) :: (rest ++ more) from rfl,
                runLoop_sonar_some cfg s px (rest ++ more) hp hskip hc2]
              exact ih _ more hle2 hcap2
      · have hp2 : s.pose.complete = false := by
          cases h2 : s.pose.complete
          · rfl
          · exact absurd h2 hp
        rw [runLoop_sonar_incomplete cfg s fr rest hp2] at hcap2 ⊢
        rw [show (Event.sonar fr :: rest) ++ more = Event.sonar fr :: (rest ++ more) from rfl,
          runLoop_sonar_incomplete cfg s fr (rest ++ more) hp2]
        exact ih _ more hle hcap2

lemma runLoop_batches_bound (cfg : Config) (m : ℤ) (hm : cfg.maxFrames = some m) :
    ∀ (evs : List Event) (s : LoopState),
      (runLoop cfg s evs).batches.length ≤ s.batches.length + (m.toNat - s.processed) := by
  intro evs
  induction evs with
  | nil => intro s; rw [runLoop_nil]; omega
  | cons e rest ih =>
    intro s
    cases e with
    | navGlobal a b => exact le_trans (ih _) (by dsimp only; omega)
    | compassHdg a => exact le_trans (ih _) (by dsimp only; omega)
    | relAlt a => exact le_trans (ih _) (by dsimp only; omega)
    | other => exact le_trans (ih _) le_rfl
    | sonar fr =>
      by_cases hp : s.pose.complete = true
      · by_cases hskip :
            cfg.skipFrames > 1 ∧ ((s.totalRaw + 1 : ℕ) : ℤ) % cfg.skipFrames ≠ 0
        · rw [runLoop_sonar_skip cfg s fr rest hp hskip]
          exact le_trans (ih _) (by dsimp only; omega)
        · by_cases hc : hitCap cfg (s.processed + 1) = true
          · rw [runLoop_sonar_break cfg s fr rest hp hskip hc]
            dsimp only
            omega
          · have hc2 : hitCap cfg (s.processed + 1) = false := by
              cases h2 : hitCap cfg (s.processed + 1)
              · rfl
              · exact absurd h2 hc
            have hle2 : s.processed + 1 ≤ m.toNat := by
              have := (hitCap_true_iff cfg m hm (s.processed + 1)).not.mp
                (by rw [hc2]; exact Bool.false_ne_true)
              omega
            cases fr with
            | none =>
              rw [runLoop_sonar_none cfg s rest hp hskip hc2]
              exact le_trans (ih _) (by dsimp only; omega)
            | some px =>
              rw [runLoop_sonar_some cfg s px rest hp hskip hc2]
              refine le_trans (ih _) ?_
              dsimp only
              simp only [List.length_append, List.length_singleton]
              omega
      · have hp2 : s.pose.complete = false := by
          cases h2 : s.pose.complete
          · rfl
          · exact absurd h2 hp
        rw [runLoop_sonar_incomplete cfg s fr rest hp2]
        exact le_trans (ih _) le_rfl

/-- C6: with a configured positive cap m, once the processed count has
exceeded the cap the whole remaining stream is ignored (the `break`
terminates consumption, so appending further events changes nothing),
and at most m accepted frames ever contribute batches to the final
raster. -/
theorem cap_stops_stream (cfg : Config) (m : ℤ) (events more : List Event)
    (hm : cfg.maxFrames = some m) (hm0 : 0 ≤ m) :
    (hitCap cfg ((runLoop cfg initState events).processed) = true →
      runLoop cfg initState (events ++ more) = runLoop cfg initState events) ∧
    (runLoop cfg initState events).batches.length ≤ m.toNat := by
  constructor
  · intro h
    exact runLoop_break_extend cfg m hm events initState more (by simp [initState]; omega) h
  · have := runLoop_batches_bound cfg m hm events initState
    simpa [initState] using this

/-- Witness for C6: cap 1, three eligible frames — the cap is exceeded,
appending one more event changes nothing, and no more than one batch is
collected. -/
theorem cap_stops_stream_witness :
    hitCap ⟨1, some 1, 1⟩
      ((runLoop ⟨1, some 1, 1⟩ initState
        [Event.navGlobal 0 0, Event.compassHdg 0, Event.relAlt 0,
         Event.sonar none, Event.sonar none, Event.sonar none]).processed) = true ∧
    runLoop ⟨1, some 1, 1⟩ initState
        ([Event.navGlobal 0 0, Event.compassHdg 0, Event.relAlt 0,
          Event.sonar none, Event.sonar none, Event.sonar none] ++ [Event.sonar none]) =
      runLoop ⟨1, some 1, 1⟩ initState
        [Event.navGlobal 0 0, Event.compassHdg 0, Event.relAlt 0,
         Event.sonar none, Event.sonar none, Event.sonar none] ∧
    (runLoop ⟨1, some 1, 1⟩ initState
      [Event.navGlobal 0 0, Event.compassHdg 0, Event.relAlt 0,
       Event.sonar none, Event.sonar none, Event.sonar none]).batches.length ≤ (1 : ℤ).toNat := by
  have hcap : hitCap ⟨1, some 1, 1⟩
      ((runLoop ⟨1, some 1, 1⟩ initState
        [Event.navGlobal 0 0, Event.compassHdg 0, Event.relAlt 0,
         Event.sonar none, Event.sonar none, Event.sonar none]).processed) = true := by
    simp [runLoop, initState, PoseState.complete, hitCap]
  have h := cap_stops_stream ⟨1, some 1, 1⟩ 1
    [Event.navGlobal 0 0, Event.compassHdg 0, Event.relAlt 0,
     Event.sonar none, Event.sonar none, Event.sonar none]
    [Event.sonar none] rfl (by norm_num)
  exact ⟨hcap, h.1 hcap, h.2⟩

/-! ### C7: decode failures -/

/-- C7 (amended): an accepted frame on which the decoder returns null is
a no-op for the accumulator (no batch is appended) but it is NOT free
with respect to the cap: the processed counter — the very counter the
cap check reads — is incremented before the decode result is examined,
so a decode failure does consume a cap slot. -/
theorem decode_null_noop_but_counted (cfg : Config) (s : LoopState) (rest : List Event)
    (hp : s.pose.complete = true)
    (hskip : ¬(cfg.skipFrames > 1 ∧ ((s.totalRaw + 1 : ℕ) : ℤ) % cfg.skipFrames ≠ 0))
    (hc : hitCap cfg (s.processed + 1) = false) :
    runLoop cfg s (Event.sonar none :: rest) =
      runLoop cfg { s with totalRaw := s.totalRaw + 1, processed := s.processed + 1 } rest :=
  runLoop_sonar_none cfg s rest hp hskip hc

/-- Witness for C7 (amended): a single accepted null-decode frame leaves
the batches untouched and bumps both counters. -/
theorem decode_null_noop_but_counted_witness :
    runLoop ⟨1, some 5, 1⟩ ⟨⟨some 0, some 0, some 0, some 0⟩, [], 0, 0⟩ [Event.sonar none] =
      runLoop ⟨1, some 5, 1⟩ ⟨⟨some 0, some 0, some 0, some 0⟩, [], 1, 1⟩ [] :=
  decode_null_noop_but_counted ⟨1, some 5, 1⟩ ⟨⟨some 0, some 0, some 0, some 0⟩, [], 0, 0⟩ []
    rfl (by decide) rfl

/-- Counterexample to C7 as stated: the processed count is NOT unchanged
by a decode failure — after one accepted null-decode frame it is 1, not
0, and with cap 1 that null frame consumes the only slot, so a following
decodable frame is never processed and the session ends with no samples
at all. -/
theorem decode_null_consumes_cap :
    (runLoop ⟨1, some 9, 1⟩ initState
      [Event.navGlobal 0 0, Event.compassHdg 0, Event.relAlt 0,
       Event.sonar none]).processed = 1 ∧
    (runLoop ⟨1, some 9, 1⟩ initState
      [Event.navGlobal 0 0, Event.compassHdg 0, Event.relAlt 0,
       Event.sonar none]).batches = [] ∧
    (runLoop ⟨1, some 1, 1⟩ initState
      [Event.navGlobal 0 0, Event.compassHdg 0, Event.relAlt 0,
       Event.sonar none, Event.sonar (some [⟨1, 2, 3⟩])]).batches = [] := by
  refine ⟨?_, ?_, ?_⟩ <;> simp [runLoop, initState, PoseState.complete, hitCap]

/-! ### C8: empty input -/

lemma runMain_eq_error_of_batches_nil (cfg : Config) (events : List Event)
    (h : (runLoop cfg initState events).batches = []) :
    runMain cfg events = .error .emptyInput := by
  simp [runMain, h]

/-- C8: if no sonar frame was ever accepted (no batch accumulated), the
program fails with the empty-input error; the error result means nothing
reaches the renderer, so no output artifact is produced. -/
theorem empty_input_error (cfg : Config) (events : List Event)
    (h : (runLoop cfg initState events).batches = []) :
    runMain cfg events = .error .emptyInput :=
  runMain_eq_error_of_batches_nil cfg events h

/-- Witness for C8: a sonar frame arriving before any pose is skipped,
so the run accumulates nothing and the program fails with the
empty-input error. -/
theorem empty_input_error_witness :
    runMain ⟨1, none, 1⟩ [Event.sonar (some [⟨0, 0, 1⟩])] = .error .emptyInput :=
  empty_input_error ⟨1, none, 1⟩ [Event.sonar (some [⟨0, 0, 1⟩])]
    (by simp [runLoop, initState, PoseState.complete])

/-! ### C9: configuration validation -/

lemma runLoop_skip_le_one_eq (cfg : Config) (hN : cfg.skipFrames ≤ 1) :
    ∀ (evs : List Event) (s : LoopState),
      runLoop cfg s evs = runLoop { cfg with skipFrames := 1 } s evs := by
  intro evs
  have hcap : ∀ p, hitCap { cfg with skipFrames := 1 } p = hitCap cfg p := by
    intro p
    simp [hitCap]
  induction evs with
  | nil => intro s; rfl
  | cons e rest ih =>
    intro s
    cases e with
    | navGlobal a b => exact ih _
    | compassHdg a => exact ih _
    | relAlt a => exact ih _
    | other => exact ih _
    | sonar fr =>
      by_cases hp : s.pose.complete = true
      · have hskip1 : ¬(cfg.skipFrames > 1 ∧
            ((s.totalRaw + 1 : ℕ) : ℤ) % cfg.skipFrames ≠ 0) := by
          intro h
          omega
        have hskip2 : ¬(({ cfg with skipFrames := 1 } : Config).skipFrames > 1 ∧
            ((s.totalRaw + 1 : ℕ) : ℤ) % ({ cfg with skipFrames := 1 } : Config).skipFrames ≠ 0) := by
          intro h
          exact absurd h.1 (by norm_num)
        by_cases hc : hitCap cfg (s.processed + 1) = true
        · rw [runLoop_sonar_break cfg s fr rest hp hskip1 hc,
            runLoop_sonar_break { cfg with skipFrames := 1 } s fr rest hp hskip2
              (by rw [hcap]; exact hc)]
        · have hc2 : hitCap cfg (s.processed + 1) = false := by
            cases h2 : hitCap cfg (s.processed + 1)
            · rfl
            · exact absurd h2 hc
          cases fr with
          | none =>
            rw [runLoop_sonar_none cfg s rest hp hskip1 hc2,
              runLoop_sonar_none { cfg with skipFrames := 1 } s rest hp hskip2
                (by rw [hcap]; exact hc2)]
            exact ih _
          | some px =>
            rw [runLoop_sonar_some cfg s px rest hp hskip1 hc2,
              runLoop_sonar_some { cfg with skipFrames := 1 } s px rest hp hskip2
                (by rw [hcap]; exact hc2)]
            exact ih _
      · have hp2 : s.pose.complete = false := by
          cases h2 : s.pose.complete
          · rfl
          · exact absurd h2 hp
        rw [runLoop_sonar_incomplete cfg s fr rest hp2,
          runLoop_sonar_incomplete { cfg with skipFrames := 1 } s fr rest hp2]
        exact ih _

lemma runLoop_cap_nonpos_batches (cfg : Config) (m : ℤ) (hm : cfg.maxFrames = some m)
    (hm0 : m ≤ 0) :
    ∀ (evs : List Event) (s : LoopState),
      s.batches = [] → (runLoop cfg s evs).batches = [] := by
  intro evs
  induction evs with
  | nil => intro s h; rw [runLoop_nil]; exact h
  | cons e rest ih =>
    intro s h
    cases e with
    | navGlobal a b => exact ih _ h
    | compassHdg a => exact ih _ h
    | relAlt a => exact ih _ h
    | other => exact ih _ h
    | sonar fr =>
      by_cases hp : s.pose.complete = true
      · by_cases hskip :
            cfg.skipFrames > 1 ∧ ((s.totalRaw + 1 : ℕ) : ℤ) % cfg.skipFrames ≠ 0
        · rw [runLoop_sonar_skip cfg s fr rest hp hskip]
          exact ih _ h
        · have hc : hitCap cfg (s.processed + 1) = true := by
            rw [hitCap_true_iff cfg m hm]
            omega
          rw [runLoop_sonar_break cfg s fr rest hp hskip hc]
          exact h
      · have hp2 : s.pose.complete = false := by
          cases h2 : s.pose.complete
          · rfl
          · exact absurd h2 hp
        rw [runLoop_sonar_incomplete cfg s fr rest hp2]
        exact ih _ h

lemma runLoop_ignores_resolution (cfg cfg2 : Config)
    (hmax : cfg2.maxFrames = cfg.maxFrames) (hskip : cfg2.skipFrames = cfg.skipFrames) :
    ∀ (evs : List Event) (s : LoopState), runLoop cfg2 s evs = runLoop cfg s evs := by
  have hcapeq : ∀ p, hitCap cfg2 p = hitCap cfg p := by
    intro p
    unfold hitCap
    rw [hmax]
  intro evs
  induction evs with
  | nil => intro s; rfl
  | cons e rest ih =>
    intro s
    cases e with
    | navGlobal a b => exact ih _
    | compassHdg a => exact ih _
    | relAlt a => exact ih _
    | other => exact ih _
    | sonar fr =>
      by_cases hp : s.pose.complete = true
      · by_cases hsk :
            cfg.skipFrames > 1 ∧ ((s.totalRaw + 1 : ℕ) : ℤ) % cfg.skipFrames ≠ 0
        · rw [runLoop_sonar_skip cfg s fr rest hp hsk,
            runLoop_sonar_skip cfg2 s fr rest hp (by rw [hskip]; exact hsk)]
          exact ih _
        · by_cases hc : hitCap cfg (s.processed + 1) = true
          · rw [runLoop_sonar_break cfg s fr rest hp hsk hc,
              runLoop_sonar_break cfg2 s fr rest hp (by rw [hskip]; exact hsk)
                (by rw [hcapeq]; exact hc)]
          · have hc2 : hitCap cfg (s.processed + 1) = false := by
              cases h2 : hitCap cfg (s.processed + 1)
              · rfl
              · exact absurd h2 hc
            cases fr with
            | none =>
              rw [runLoop_sonar_none cfg s rest hp hsk hc2,
                runLoop_sonar_none cfg2 s rest hp (by rw [hskip]; exact hsk)
                  (by rw [hcapeq]; exact hc2)]
              exact ih _
            | some px =>
              rw [runLoop_sonar_some cfg s px rest hp hsk hc2,
                runLoop_sonar_some cfg2 s px rest hp (by rw [hskip]; exact hsk)
                  (by rw [hcapeq]; exact hc2)]
              exact ih _
      · have hp2 : s.pose.complete = false := by
          cases h2 : s.pose.complete
          · rfl
          · exact absurd h2 hp
        rw [runLoop_sonar_incomplete cfg s fr rest hp2,
          runLoop_sonar_incomplete cfg2 s fr rest hp2]
        exact ih _

/-- C9 (amended): the program performs no configuration validation and
has no ConfigurationError path — nothing is rejected before stream
processing for any non-positive resolution, stride, or cap.  A
non-positive stride is accepted and behaves exactly like stride 1
(every eligible frame is processed, since the skip branch requires
skip_frames > 1); a non-positive max-frame cap is accepted, the stream
is still consumed, and the run ends in the empty-input error rather
than any configuration error; and the resolution — non-positive
included — is never examined before or during stream consumption: the
loop behaves identically for every resolution value. -/
theorem no_config_validation (cfg : Config) (events : List Event) :
    (cfg.skipFrames ≤ 1 →
      runLoop cfg initState events =
        runLoop { cfg with skipFrames := 1 } initState events) ∧
    (∀ m : ℤ, cfg.maxFrames = some m → m ≤ 0 →
      runMain cfg events = .error .emptyInput) ∧
    (∀ r : ℝ, runLoop { cfg with resolution := r } initState events =
      runLoop cfg initState events) := by
  refine ⟨?_, ?_, ?_⟩
  · intro hN
    exact runLoop_skip_le_one_eq cfg hN events initState
  · intro m hm hm0
    exact runMain_eq_error_of_batches_nil cfg events
      (runLoop_cap_nonpos_batches cfg m hm hm0 events initState rfl)
  · intro r
    exact runLoop_ignores_resolution cfg { cfg with resolution := r } rfl rfl events initState

/-- Witness for C9 (amended): stride 0 behaves like stride 1, cap 0
yields the empty-input error, and replacing the resolution by the
non-positive value -1 leaves the loop's behavior unchanged. -/
theorem no_config_validation_witness :
    runLoop ⟨1, some 0, 0⟩ initState [Event.navGlobal 0 0, Event.sonar none] =
      runLoop ⟨1, some 0, 1⟩ initState [Event.navGlobal 0 0, Event.sonar none] ∧
    runMain ⟨1, some 0, 0⟩ [Event.navGlobal 0 0, Event.sonar none] = .error .emptyInput ∧
    runLoop ⟨-1, some 0, 0⟩ initState [Event.navGlobal 0 0, Event.sonar none] =
      runLoop ⟨1, some 0, 0⟩ initState [Event.navGlobal 0 0, Event.sonar none] :=
  ⟨(no_config_validation ⟨1, some 0, 0⟩ _).1 (by norm_num),
   (no_config_validation ⟨1, some 0, 0⟩ _).2.1 0 rfl le_rfl,
   (no_config_validation ⟨1, some 0, 0⟩ _).2.2 (-1)⟩

/-- Counterexample to C9 as stated: with the non-positive stride 0 the
program does not fail before stream processing — there is no
configuration error at all; the stream is consumed, a frame is processed
and its samples are accumulated. -/
theorem config_not_validated :
    ((⟨1, none, 0⟩ : Config).skipFrames ≤ 0) ∧
    (runLoop ⟨1, none, 0⟩ initState
      [Event.navGlobal 0 0, Event.compassHdg 0, Event.relAlt 0,
       Event.sonar (some [⟨0, 0, 1⟩])]).processed = 1 ∧
    (runLoop ⟨1, none, 0⟩ initState
      [Event.navGlobal 0 0, Event.compassHdg 0, Event.relAlt 0,
       Event.sonar (some [⟨0, 0, 1⟩])]).batches.length = 1 := by
  refine ⟨by norm_num, ?_, ?_⟩ <;> simp [runLoop, initState, PoseState.complete, hitCap]

end SeabedMap
